import Mathlib

/-!
# Verification of the PnP PDF Creator layout & geometry engine

Shallow embedding of `PnP_PDF_Creator.py` (single-file Python program).
Pixel and point quantities are modelled as `ℤ` and `ℚ`; Python's `round`
(banker's rounding) is modelled by `pyRound`.  Each definition carries a
reference to the source lines it embeds.
-/

/-- Python's built-in `round` on a rational: round half to even. -/
def pyRound (q : ℚ) : ℤ :=
  if q - ⌊q⌋ < 1/2 then ⌊q⌋
  else if 1/2 < q - ⌊q⌋ then ⌊q⌋ + 1
  else if ⌊q⌋ % 2 = 0 then ⌊q⌋ else ⌊q⌋ + 1

/-! ## Format geometry resolver (source lines 142-197, 262-300) -/

/-- `TEMPLATE_DPI = 300` (source line 143). -/
def TEMPLATE_DPI : ℤ := 300

/-- `MM_PER_INCH = 25.4` (source line 145). -/
def MM_PER_INCH : ℚ := 254 / 10

/-- `BLEED_LEFT_TOP_PX = 37` (source line 284). -/
def BLEED_LEFT_TOP_PX : ℤ := 37

/-- `BLEED_RIGHT_BOTTOM_PX = 38` (source line 285). -/
def BLEED_RIGHT_BOTTOM_PX : ℤ := 38

/-- The geometry constants set by `apply_card_format` (globals
`POKER_W_PT, POKER_H_PT, INNER_W_PX, INNER_H_PX, BLEED_W_PX, BLEED_H_PX`). -/
structure Geometry where
  trim_w_pt : ℚ
  trim_h_pt : ℚ
  inner_w_px : ℤ
  inner_h_px : ℤ
  bleed_w_px : ℤ
  bleed_h_px : ℤ
  deriving DecidableEq, Repr

/-- `_fmt_to_inner_px` (source lines 162-166): trim pixels at template DPI,
`int(round(w_in * TEMPLATE_DPI))` per axis. -/
def fmt_to_inner_px (w_mm h_mm : ℚ) : ℤ × ℤ :=
  let w_in := w_mm / MM_PER_INCH
  let h_in := h_mm / MM_PER_INCH
  (pyRound (w_in * TEMPLATE_DPI), pyRound (h_in * TEMPLATE_DPI))

/-- `apply_card_format` (source lines 172-197): derives trim points and
inner/bleed pixel sizes from a card format's millimetre dimensions. -/
def apply_card_format (w_mm h_mm : ℚ) : Geometry :=
  let w_in := w_mm / MM_PER_INCH
  let h_in := h_mm / MM_PER_INCH
  let iw := (fmt_to_inner_px w_mm h_mm).1
  let ih := (fmt_to_inner_px w_mm h_mm).2
  { trim_w_pt := w_in * 72
    trim_h_pt := h_in * 72
    inner_w_px := iw
    inner_h_px := ih
    bleed_w_px := iw + BLEED_LEFT_TOP_PX + BLEED_RIGHT_BOTTOM_PX
    bleed_h_px := ih + BLEED_LEFT_TOP_PX + BLEED_RIGHT_BOTTOM_PX }

/-! ## INI outer-bleed loader (source lines 464-477) -/

/-- Result of `cp.getint(section, option, fallback=...)`: the option may be
missing (configparser then returns the fallback), present but not parsable
as an integer (configparser raises), or present with integer value `v`. -/
inductive IniInt where
  | missing : IniInt
  | badValue : IniInt
  | val (v : ℤ) : IniInt
  deriving DecidableEq, Repr

/-- `_get_outer_bleed_keep_px` (source lines 464-477): reads the configured
outer-bleed keep amount.  A raised parse error is caught and yields the
fallback unclamped; a missing option yields the fallback which then goes
through the same clamp as a parsed value; parsed values are clamped to
[0, 20]. -/
def get_outer_bleed_keep_px (raw : IniInt) (fallback : ℤ) : ℤ :=
  match raw with
  | .badValue => fallback
  | .missing =>
      if fallback < 0 then 0 else if 20 < fallback then 20 else fallback
  | .val v =>
      if v < 0 then 0 else if 20 < v then 20 else v

/-- Module-level default `OUTER_BLEED_KEEP_PX = 15` (source line 294), the
fallback passed at the only call site (source lines 697-702). -/
def OUTER_BLEED_KEEP_PX_default : ℤ := 15

/-! ## Placement column mirroring (source lines 2611-2621 and 2825-2833) -/

/-- Column used by `place_images_grid_inner` for cell index `idx`
(source lines 2613-2617): `col = idx % cols`, mirrored to
`(cols - 1) - col` on the back side. -/
def place_images_grid_inner_col (cols idx : ℕ) (is_back : Bool) : ℕ :=
  if is_back then (cols - 1) - (idx % cols) else idx % cols

/-- Column used by `place_images_bleed_grid` for cell index `idx`
(source lines 2827-2831): same mirroring rule as the plain grid. -/
def place_images_bleed_grid_col (cols idx : ℕ) (is_back : Bool) : ℕ :=
  if is_back then (cols - 1) - (idx % cols) else idx % cols

/-! ## Grid layout planner (source lines 2209-2273, 316-339) -/

/-- `MARGINS_PT` (source lines 316-325): print-safe margin of 0.1 cm on each
side, converted by `cm_to_pt(cm) = cm * 72.0 / 2.54`. -/
structure Margins where
  left : ℚ
  right : ℚ
  top : ℚ
  bottom : ℚ
  deriving DecidableEq, Repr

def cm_to_pt (cm : ℚ) : ℚ := cm * 72 / (254/100)

def PRINT_SAFE_MARGIN_CM : ℚ := 1/10

def MARGINS_PT : Margins :=
  { left := cm_to_pt PRINT_SAFE_MARGIN_CM
    right := cm_to_pt PRINT_SAFE_MARGIN_CM
    top := cm_to_pt PRINT_SAFE_MARGIN_CM
    bottom := cm_to_pt PRINT_SAFE_MARGIN_CM }

/-- `BOTTOM_Y = 10.0` (source line 310). -/
def BOTTOM_Y : ℚ := 10

/-- `CUTMARK_LEN_PT_STD = 5.0` default (source line 275). -/
def CUTMARK_LEN_PT_STD : ℚ := 5

/-- `BOTTOM_RESERVED_PT = max(BOTTOM_Y + 5.0, CUTMARK_LEN_PT_STD)`
(source line 330). -/
def BOTTOM_RESERVED_PT : ℚ := max (BOTTOM_Y + 5) CUTMARK_LEN_PT_STD

/-- Reserves (source lines 336-339). -/
def RESERVE_TOP_PT : ℚ := BOTTOM_RESERVED_PT
def RESERVE_LEFT_PT : ℚ := 0
def RESERVE_RIGHT_PT : ℚ := 0

/-- `compute_grid_origin_centered_with_margins` (source lines 2209-2229):
centers a grid of size `grid_w × grid_h` inside the page area left after
margins and reserves; on non-positive available area it anchors the origin
just inside the margins and reserves. -/
def compute_grid_origin_centered_with_margins
    (page_w page_h grid_w grid_h : ℚ) (m : Margins)
    (top_reserved_pt bottom_reserved_pt left_reserved_pt right_reserved_pt : ℚ) :
    ℚ × ℚ :=
  let avail_w := page_w - m.left - m.right - left_reserved_pt - right_reserved_pt
  let avail_h := page_h - m.top - m.bottom - top_reserved_pt - bottom_reserved_pt
  if avail_w ≤ 0 ∨ avail_h ≤ 0 then
    (m.left + left_reserved_pt, m.bottom + bottom_reserved_pt)
  else
    (m.left + left_reserved_pt + (avail_w - grid_w) / 2,
     m.bottom + bottom_reserved_pt + (avail_h - grid_h) / 2)

/-- Result of `compute_max_grid_counts`:
`(cols, rows, x0, y0, grid_w, grid_h, grid_top_y)`. -/
structure GridPlan where
  cols : ℤ
  rows : ℤ
  x0 : ℚ
  y0 : ℚ
  grid_w : ℚ
  grid_h : ℚ
  grid_top_y : ℚ
  deriving DecidableEq, Repr

/-- `compute_max_grid_counts` (source lines 2234-2273).  The `logo_path`
parameter is accepted but unused in the space computation (only the fixed
top reserve `top_fixed_reserved_pt` counts); `cols = max(1, avail_w // box_w)`
and `rows = max(1, (avail_h - extra) // box_h)`; the grid is centered via
`compute_grid_origin_centered_with_margins`; a non-positive available area
falls back to a 1×1 grid anchored just inside margins and reserves. -/
def compute_max_grid_counts
    (page_w page_h box_w box_h : ℚ) (m : Margins) (logo_path : Option Unit)
    (bottom_reserved_pt : ℚ) (extra_vertical_pt : ℚ)
    (left_reserved_pt right_reserved_pt top_fixed_reserved_pt : ℚ) : GridPlan :=
  let _ := logo_path
  let top_res := top_fixed_reserved_pt
  let avail_w := page_w - m.left - m.right - left_reserved_pt - right_reserved_pt
  let avail_h := page_h - m.top - m.bottom - top_res - bottom_reserved_pt
  if avail_w ≤ 0 ∨ avail_h ≤ 0 then
    { cols := 1, rows := 1
      x0 := m.left + left_reserved_pt
      y0 := m.bottom + bottom_reserved_pt
      grid_w := box_w
      grid_h := box_h + extra_vertical_pt
      grid_top_y := m.bottom + bottom_reserved_pt + box_h + extra_vertical_pt }
  else
    let rows : ℤ := max 1 ⌊(avail_h - extra_vertical_pt) / box_h⌋
    let cols : ℤ := max 1 ⌊avail_w / box_w⌋
    let grid_w := (cols : ℚ) * box_w
    let grid_h := (rows : ℚ) * box_h + extra_vertical_pt
    let o := compute_grid_origin_centered_with_margins page_w page_h grid_w grid_h
      m top_res bottom_reserved_pt left_reserved_pt right_reserved_pt
    { cols := cols, rows := rows
      x0 := o.1, y0 := o.2
      grid_w := grid_w, grid_h := grid_h
      grid_top_y := o.2 + grid_h }

/-! ## Gutterfold orientation and space check
(source lines 300, 3149-3216) -/

/-- `GF_FOLD_GUTTER_PT = 12.0` (source line 300). -/
def GF_FOLD_GUTTER_PT : ℚ := 12

/-- reportlab's `landscape(pagesize)`: returns the page with the larger
dimension first. -/
def landscape (p : ℚ × ℚ) : ℚ × ℚ := if p.1 < p.2 then (p.2, p.1) else p

/-- `available_h` inside `choose_gutterfold_orientation` (source lines
3203-3207): page height minus top/bottom margins and reserves. -/
def gf_available_h (p : ℚ × ℚ) : ℚ :=
  p.2 - MARGINS_PT.top - MARGINS_PT.bottom - RESERVE_TOP_PT - BOTTOM_RESERVED_PT

/-- `choose_gutterfold_orientation` (source lines 3201-3216): landscape if it
fits `2*card_h + gutter`, else portrait if it fits, else whichever has the
larger available height. -/
def choose_gutterfold_orientation (card_h : ℚ) (base : ℚ × ℚ) : ℚ × ℚ :=
  let needed_h := 2 * card_h + GF_FOLD_GUTTER_PT
  let ls := landscape base
  if needed_h ≤ gf_available_h ls then ls
  else if needed_h ≤ gf_available_h base then base
  else if gf_available_h base ≤ gf_available_h ls then ls else base

/-- The local names bound in `generate_pdf` at the point where the gutterfold
shortfall message is built (source lines 2997-3156): the function's
parameters and the locals assigned before line 3156.  `needed_h` is NOT among
them — it is a local variable of `choose_gutterfold_orientation` (source line
3209), a different function. -/
def generate_pdf_gutterfold_locals : List String :=
  ["layout_key", "out_path", "pagesize_tuple", "pairs", "logo_path",
   "copyright_name", "version_str", "quality_key", "include_back_pages",
   "outer_bleed_keep_px", "rulebook_images", "lk", "page_w", "page_h",
   "card_w", "card_h", "gf_extra", "top_res", "avail_w", "avail_h"]

/-- Outcome of the gutterfold branch of `generate_pdf` up to grid planning
(source lines 3149-3175). -/
inductive GutterfoldOutcome where
  | planned (cols : ℤ) (x0 y0 : ℚ) : GutterfoldOutcome
  | notEnoughSpace (avail need : ℚ) : GutterfoldOutcome
  | nameError (missing : String) : GutterfoldOutcome
  deriving DecidableEq, Repr

/-- The gutterfold branch of `generate_pdf` (source lines 3149-3175).  When
`avail_h < 2*card_h + gf_extra` the code builds the localized
"not enough space" message with arguments `avail=avail_h, need=needed_h, ...`
(source lines 3157-3166); evaluating the argument expression `needed_h` looks
the name up among the bound locals, and since it is not bound there, Python
raises `NameError` instead of the localized `ValueError`. -/
def generate_pdf_gutterfold (page_w page_h card_w card_h gf_extra : ℚ) :
    GutterfoldOutcome :=
  let top_res := RESERVE_TOP_PT
  let avail_w := page_w - MARGINS_PT.left - MARGINS_PT.right
  let avail_h := page_h - MARGINS_PT.top - MARGINS_PT.bottom - top_res
      - BOTTOM_RESERVED_PT
  if avail_h < 2 * card_h + gf_extra then
    if generate_pdf_gutterfold_locals.contains "needed_h" then
      GutterfoldOutcome.notEnoughSpace avail_h (2 * card_h + gf_extra)
    else
      GutterfoldOutcome.nameError "needed_h"
  else
    let cols : ℤ := max 1 ⌊avail_w / card_w⌋
    let grid_w := (cols : ℚ) * card_w
    let grid_h := 2 * card_h + gf_extra
    let o := compute_grid_origin_centered_with_margins page_w page_h grid_w grid_h
      MARGINS_PT top_res BOTTOM_RESERVED_PT 0 0
    GutterfoldOutcome.planned cols o.1 o.2

/-! ## Sheet orchestration (source lines 1945-1947, 3044-3080, 3356-3371) -/

/-- `chunk(lst, n)` (source lines 1945-1947): successive slices of length `n`
(the last may be shorter).  Python's generator never terminates for `n = 0`;
that case is excluded by returning `[]` and is never used. -/
def chunkAux {α : Type} (n : ℕ) : ℕ → List α → List (List α)
  | 0, _ => []
  | _, [] => []
  | fuel + 1, l => l.take n :: chunkAux n fuel (l.drop n)

def chunk {α : Type} (l : List α) (n : ℕ) : List (List α) :=
  if n = 0 then [] else chunkAux n l.length l

/-- A card pair as the orchestrator sees it: whether a front image reference
exists and whether a back image reference exists (`a`/`b` of the
`(base, a, b)` tuples, with `p and p.exists()` collapsed to a Bool). -/
structure PairRefs where
  front : Bool
  back : Bool
  deriving DecidableEq, Repr

/-- Back-side handling in `main` (source lines 3356-3371): if no pair in the
deck has a back, a shared cardback file is searched for; if found it becomes
every pair's back, otherwise back pages are disabled for the run. -/
def main_back_handling (pairs : List PairRefs) (shared_back_found : Bool) :
    List PairRefs × Bool :=
  let missing_backs := pairs.filter (fun p => ! p.back)
  let has_any_back := missing_backs.length < pairs.length
  if ! has_any_back then
    if shared_back_found then
      (pairs.map (fun p => { p with back := true }), true)
    else
      (pairs, false)
  else
    (pairs, true)

/-- Sheet counts for the standard layout loop of `generate_pdf`
(source lines 3044-3080): one front sheet per chunk of `per_page` pairs, and
one back sheet per chunk only when `include_back_pages` holds and some back
exists in the chunk. -/
def standard_layout_sheet_counts (pairs : List PairRefs) (per_page : ℕ)
    (include_back_pages : Bool) : ℕ × ℕ :=
  let groups := chunk pairs per_page
  (groups.length,
   (groups.filter (fun g => include_back_pages && g.any (fun p => p.back))).length)

/-! ## Occupancy & outer-bleed resolver
(source lines 2533-2567 and 2596-2645)

Image lists are modelled as `List Bool`: entry `idx` is `true` iff
`img_paths[idx]` is a non-null path whose file exists.  Both occupancy loops
(`_compute_enclosing_edges` lines 2541-2552 and `place_images_grid_inner`
lines 2600-2608) mark cell `(idx // cols, mirrored col)` for each in-range
index with an existing image and touch no other cell, so the resulting
matrix is described exactly by `occAt`. -/

/-- The (possibly mirrored) column for cell index residue `c`:
`col = (cols - 1) - col` on back sides (source lines 2550-2551,
2606-2607 and 2616-2617). -/
def mirror_col (is_back : Bool) (cols c : ℕ) : ℕ :=
  if is_back then (cols - 1) - c else c

/-- Occupancy matrix entry `occ[r][c]` after the marking loops: some index
`idx < min(len(img_paths), cols*rows)` with an existing image maps to
`(r, c)`. -/
def occAt (imgs : List Bool) (cols rows : ℕ) (is_back : Bool) (r c : ℕ) : Bool :=
  (List.range (min imgs.length (cols * rows))).any fun idx =>
    imgs.getD idx false && (idx / cols == r) && (mirror_col is_back cols (idx % cols) == c)

/-- `row_has[i] = any(occ[i])` (source line 2554). -/
def row_has (imgs : List Bool) (cols rows : ℕ) (is_back : Bool) (r : ℕ) : Bool :=
  (List.range cols).any fun c => occAt imgs cols rows is_back r c

/-- `next((i for i in range(start, start+fuel) if p(i)), None)`: first index
at or after `start` (within `fuel` candidates) satisfying `p`. -/
def findFirstAux (p : ℕ → Bool) (start : ℕ) : ℕ → Option ℕ
  | 0 => none
  | fuel + 1 => if p start then some start else findFirstAux p (start + 1) fuel

/-- `next((i for i in range(n-1, -1, -1) if p(i)), None)`: last index below
`n` satisfying `p`. -/
def findLastAux (p : ℕ → Bool) : ℕ → Option ℕ
  | 0 => none
  | n + 1 => if p n then some n else findLastAux p n

/-- `min_row` of `_compute_enclosing_edges` (source line 2556): first occupied
row overall, default 0. -/
def min_row (imgs : List Bool) (cols rows : ℕ) (is_back : Bool) : ℕ :=
  (findFirstAux (row_has imgs cols rows is_back) 0 rows).getD 0

/-- `max_row` of `_compute_enclosing_edges` (source line 2557): last occupied
row overall, default `rows - 1`. -/
def max_row (imgs : List Bool) (cols rows : ℕ) (is_back : Bool) : ℕ :=
  (findLastAux (row_has imgs cols rows is_back) rows).getD (rows - 1)

/-- `min_col_row[i]` of `_compute_enclosing_edges` (source lines 2560-2565):
for an occupied row, the first occupied column in that row (default 0),
otherwise `None`. -/
def min_col_row (imgs : List Bool) (cols rows : ℕ) (is_back : Bool) (r : ℕ) :
    Option ℕ :=
  if row_has imgs cols rows is_back r then
    some ((findFirstAux (fun c => occAt imgs cols rows is_back r c) 0 cols).getD 0)
  else none

/-- `max_col_row[i]` of `_compute_enclosing_edges` (source lines 2560-2565):
for an occupied row, the last occupied column in that row
(default `cols - 1`), otherwise `None`. -/
def max_col_row (imgs : List Bool) (cols rows : ℕ) (is_back : Bool) (r : ℕ) :
    Option ℕ :=
  if row_has imgs cols rows is_back r then
    some ((findLastAux (fun c => occAt imgs cols rows is_back r c) cols).getD (cols - 1))
  else none

/-- Per-cell keep amounts (0 or the outer-bleed pixel amount). -/
structure KeepAmounts where
  left : ℕ
  right : ℕ
  top : ℕ
  bottom : ℕ
  deriving DecidableEq, Repr

/-- The outer-bleed keep decision of the drawing loop of
`place_images_grid_inner` for cell index `idx` (source lines 2611-2643):
left/right from the first/last occupied column of the cell's row, top from
the first occupied row overall, bottom from the last occupied row or an
unoccupied cell directly below. -/
def place_keep (imgs : List Bool) (cols rows : ℕ) (is_back : Bool)
    (outer_bleed_keep_px idx : ℕ) : KeepAmounts :=
  let row := idx / cols
  let col := mirror_col is_back cols (idx % cols)
  { left := if min_col_row imgs cols rows is_back row = some col
      then outer_bleed_keep_px else 0
    right := if max_col_row imgs cols rows is_back row = some col
      then outer_bleed_keep_px else 0
    top := if row = min_row imgs cols rows is_back then outer_bleed_keep_px else 0
    bottom :=
      if row = max_row imgs cols rows is_back then outer_bleed_keep_px
      else if row + 1 < rows then
        (if occAt imgs cols rows is_back (row + 1) col then 0 else outer_bleed_keep_px)
      else 0 }

/-- The cell's row is the first occupied row overall. -/
def IsFirstOccRow (imgs : List Bool) (cols rows : ℕ) (is_back : Bool) (r : ℕ) :
    Prop :=
  row_has imgs cols rows is_back r = true ∧
  ∀ r' < r, row_has imgs cols rows is_back r' = false

/-- The cell's row is the last occupied row overall. -/
def IsLastOccRow (imgs : List Bool) (cols rows : ℕ) (is_back : Bool) (r : ℕ) :
    Prop :=
  row_has imgs cols rows is_back r = true ∧
  ∀ r', r < r' → row_has imgs cols rows is_back r' = false

/-- The cell is the first occupied column within its own row. -/
def IsFirstOccColInRow (imgs : List Bool) (cols rows : ℕ) (is_back : Bool)
    (r c : ℕ) : Prop :=
  occAt imgs cols rows is_back r c = true ∧
  ∀ c' < c, occAt imgs cols rows is_back r c' = false

/-- The cell is the last occupied column within its own row. -/
def IsLastOccColInRow (imgs : List Bool) (cols rows : ℕ) (is_back : Bool)
    (r c : ℕ) : Prop :=
  occAt imgs cols rows is_back r c = true ∧
  ∀ c', c < c' → occAt imgs cols rows is_back r c' = false

/-! ## Image preprocessor (source lines 122-126, 1258-1392)

Modelled at the level of pixel dimensions: each step of
`preprocess_card_image_for_pdf` is represented by the dimensions of the image
it produces (PIL `crop((l, t, r, b))` yields an `(r - l) × (b - t)` image,
`resize`/`thumbnail` yield their target size). -/

/-- `QUALITY_PRESETS` keys (source lines 122-126) plus the `lossless` preset,
which is handled by a dedicated branch (source lines 1372-1376). -/
inductive Quality where
  | lossless : Quality
  | high : Quality
  | medium : Quality
  | low : Quality
  deriving DecidableEq, Repr

/-- Preset DPI (source lines 122-126).  `QUALITY_PRESETS.get` falls back to
the `high` preset for `lossless` (source line 1272); the value is never used
on the lossless path. -/
def dpi : Quality → ℤ
  | .lossless => 300
  | .high => 300
  | .medium => 200
  | .low => 120

/-- `target_pixels_for_box_inches` (source lines 1258-1259). -/
def target_pixels_for_box_inches (w_in h_in : ℚ) (d : ℤ) : ℤ × ℤ :=
  (pyRound (w_in * (d : ℚ)), pyRound (h_in * (d : ℚ)))

/-- The crop steps of the `crop_bleed=True` branch before the final upscale
check (source lines 1319-1341): exact-bleed fixed border crop, or
proportional border crop for larger-than-bleed sources, then center-crop to
inner when still at least inner-sized on both axes. -/
def inner_crop_steps (iw ih w h : ℤ) : ℤ × ℤ :=
  let bw := iw + BLEED_LEFT_TOP_PX + BLEED_RIGHT_BOTTOM_PX
  let bh := ih + BLEED_LEFT_TOP_PX + BLEED_RIGHT_BOTTOM_PX
  let s1 :=
    if w = bw ∧ h = bh then
      (w - BLEED_LEFT_TOP_PX - BLEED_RIGHT_BOTTOM_PX,
       h - BLEED_LEFT_TOP_PX - BLEED_RIGHT_BOTTOM_PX)
    else if bw ≤ w ∧ bh ≤ h then
      ((w - pyRound ((w : ℚ) * ((BLEED_RIGHT_BOTTOM_PX : ℚ) / (bw : ℚ))))
         - pyRound ((w : ℚ) * ((BLEED_LEFT_TOP_PX : ℚ) / (bw : ℚ))),
       (h - pyRound ((h : ℚ) * ((BLEED_RIGHT_BOTTOM_PX : ℚ) / (bh : ℚ))))
         - pyRound ((h : ℚ) * ((BLEED_LEFT_TOP_PX : ℚ) / (bh : ℚ))))
    else (w, h)
  if iw ≤ s1.1 ∧ ih ≤ s1.2 ∧ ¬(s1.1 = iw ∧ s1.2 = ih) then (iw, ih) else s1

/-- The full `crop_bleed=True` branch (source lines 1319-1348): after the
crop steps, a source smaller than inner on any axis is stretch-resized to
exactly inner. -/
def inner_crop_dims (iw ih w h : ℤ) : ℤ × ℤ :=
  let s := inner_crop_steps iw ih w h
  if s.1 < iw ∨ s.2 < ih then (iw, ih) else s

/-- The `crop_bleed=False` branch (source lines 1351-1370): center-crop to
the bleed canvas when at least bleed-sized, then center-crop to the bleed
aspect ratio if it is off.  Never upscales. -/
def bleed_crop_dims (iw ih w h : ℤ) : ℤ × ℤ :=
  let bw := iw + BLEED_LEFT_TOP_PX + BLEED_RIGHT_BOTTOM_PX
  let bh := ih + BLEED_LEFT_TOP_PX + BLEED_RIGHT_BOTTOM_PX
  let s1 := if bw ≤ w ∧ bh ≤ h ∧ ¬(w = bw ∧ h = bh) then (bw, bh) else (w, h)
  if s1.1 * bh ≠ s1.2 * bw then
    let target : ℚ := (bw : ℚ) / (bh : ℚ)
    let current : ℚ := if s1.2 = 0 then target else (s1.1 : ℚ) / (s1.2 : ℚ)
    if target < current then (pyRound ((s1.2 : ℚ) * target), s1.2)
    else (s1.1, pyRound ((s1.1 : ℚ) / target))
  else s1

/-- Dimension semantics of the raster codec's aspect-preserving shrink
(PIL `Image.thumbnail`, an external collaborator): never enlarges, fits the
image into the target box preserving aspect ratio, rounding the free axis. -/
def thumbnail_dims (w h tw th : ℤ) : ℤ × ℤ :=
  if w ≤ tw ∧ h ≤ th then (w, h)
  else if h ≠ 0 ∧ th * w ≤ tw * h then
    (max (pyRound (((th * w : ℤ) : ℚ) / (h : ℚ))) 1, th)
  else if w ≠ 0 then
    (tw, max (pyRound (((tw * h : ℤ) : ℚ) / (w : ℚ))) 1)
  else (tw, th)

/-- Dimensions of the raster produced by `preprocess_card_image_for_pdf`
(source lines 1261-1392): geometry normalization per crop mode, then for
lossless a PNG at full size, and for lossy presets a shrink (never an
enlargement) to the DPI-derived pixel box before JPEG encoding
(source lines 1372-1383). -/
def preprocess_card_image_dims (iw ih : ℤ) (q : Quality) (box_w_in box_h_in : ℚ)
    (crop_bleed : Bool) (w h : ℤ) : ℤ × ℤ :=
  let g := if crop_bleed then inner_crop_dims iw ih w h else bleed_crop_dims iw ih w h
  if q = Quality.lossless then g
  else
    let t := target_pixels_for_box_inches box_w_in box_h_in (dpi q)
    if t.1 < g.1 ∨ t.2 < g.2 then thumbnail_dims g.1 g.2 t.1 t.2 else g

/-- `cache_key = (resolved path, quality_key, box string, crop mode)`
(source line 1277). -/
structure CacheKey where
  path : String
  quality : Quality
  box : ℚ × ℚ
  crop : Bool
  deriving DecidableEq

/-- Lookup in `_CONVERT_CACHE` (source line 1278). -/
def cache_lookup : List (CacheKey × (ℤ × ℤ)) → CacheKey → Option (ℤ × ℤ)
  | [], _ => none
  | (k', v) :: rest, k => if k' = k then some v else cache_lookup rest k

/-- The caching wrapper of `preprocess_card_image_for_pdf` (source lines
1277-1292, 1391-1392): a hit returns the cached result unchanged; a miss
computes the result and records it under the key. -/
def preprocess_card_image_cached (iw ih : ℤ) (cache : List (CacheKey × (ℤ × ℤ)))
    (k : CacheKey) (w h : ℤ) : (ℤ × ℤ) × List (CacheKey × (ℤ × ℤ)) :=
  match cache_lookup cache k with
  | some v => (v, cache)
  | none =>
    let r := preprocess_card_image_dims iw ih k.quality k.box.1 k.box.2 k.crop w h
    (r, (k, r) :: cache)

/-! ## Claim theorems (first batch) -/

theorem pyRound_intCast (n : ℤ) : pyRound (n : ℚ) = n := by
  simp [pyRound]

/-- C3: for every card format, on both axes the bleed pixel size exceeds the
inner pixel size by exactly `37 + 38` (asymmetric border invariant),
as produced by `apply_card_format`. -/
theorem bleed_px_minus_inner_px_eq_75 (w_mm h_mm : ℚ) :
    (apply_card_format w_mm h_mm).bleed_w_px - (apply_card_format w_mm h_mm).inner_w_px
      = 37 + 38 ∧
    (apply_card_format w_mm h_mm).bleed_h_px - (apply_card_format w_mm h_mm).inner_h_px
      = 37 + 38 := by
  constructor <;>
    simp [apply_card_format, BLEED_LEFT_TOP_PX, BLEED_RIGHT_BOTTOM_PX] <;> ring

/-- C8: the Poker format (63.5 mm × 88.9 mm) resolves to inner pixels
(750, 1050), bleed pixels (825, 1125) and trim points (180, 252). -/
theorem poker_format_pixel_geometry :
    apply_card_format (127/2) (889/10)
      = { trim_w_pt := 180, trim_h_pt := 252,
          inner_w_px := 750, inner_h_px := 1050,
          bleed_w_px := 825, bleed_h_px := 1125 } := by
  have hw : ((127:ℚ)/2) / MM_PER_INCH * TEMPLATE_DPI = ((750:ℤ) : ℚ) := by
    norm_num [MM_PER_INCH, TEMPLATE_DPI]
  have hh : ((889:ℚ)/10) / MM_PER_INCH * TEMPLATE_DPI = ((1050:ℤ) : ℚ) := by
    norm_num [MM_PER_INCH, TEMPLATE_DPI]
  simp only [apply_card_format, fmt_to_inner_px, Geometry.mk.injEq, hw, hh,
    pyRound_intCast]
  norm_num [MM_PER_INCH, BLEED_LEFT_TOP_PX, BLEED_RIGHT_BOTTOM_PX]

/-- C10: the INI-loaded outer-bleed keep amount is clamped: a parsed negative
value yields 0, a parsed value above 20 yields 20, a parsed value in range is
returned as is, a non-parsable value yields the fallback, and whenever the
fallback is itself in [0, 20] (as the module default 15 is) the result is in
[0, 20]. -/
theorem outer_bleed_keep_px_clamped (raw : IniInt) (v fallback : ℤ) :
    (v < 0 → get_outer_bleed_keep_px (.val v) fallback = 0) ∧
    (20 < v → get_outer_bleed_keep_px (.val v) fallback = 20) ∧
    (0 ≤ v → v ≤ 20 → get_outer_bleed_keep_px (.val v) fallback = v) ∧
    (get_outer_bleed_keep_px .badValue fallback = fallback) ∧
    (0 ≤ fallback → fallback ≤ 20 →
      0 ≤ get_outer_bleed_keep_px raw fallback ∧
      get_outer_bleed_keep_px raw fallback ≤ 20) ∧
    (0 ≤ OUTER_BLEED_KEEP_PX_default ∧ OUTER_BLEED_KEEP_PX_default ≤ 20) := by
  refine ⟨?_, ?_, ?_, rfl, ?_, by decide⟩
  · intro h; simp [get_outer_bleed_keep_px, h]
  · intro h
    have : ¬ v < 0 := by omega
    simp [get_outer_bleed_keep_px, this, h]
  · intro h1 h2
    have hn : ¬ v < 0 := by omega
    have hm : ¬ 20 < v := by omega
    simp [get_outer_bleed_keep_px, hn, hm]
  · intro h1 h2
    cases raw with
    | missing => simp only [get_outer_bleed_keep_px]; split <;> [omega; (split <;> omega)]
    | badValue => exact ⟨h1, h2⟩
    | val w => simp only [get_outer_bleed_keep_px]; split <;> [omega; (split <;> omega)]

theorem outer_bleed_keep_px_clamped_witness :
    get_outer_bleed_keep_px (.val (-3)) 15 = 0 ∧
    get_outer_bleed_keep_px (.val 25) 15 = 20 ∧
    get_outer_bleed_keep_px (.val 7) 15 = 7 ∧
    get_outer_bleed_keep_px .badValue 15 = 15 ∧
    ((0:ℤ) ≤ 15 ∧ (15:ℤ) ≤ 20 ∧
      0 ≤ get_outer_bleed_keep_px (.val 100) 15 ∧
      get_outer_bleed_keep_px (.val 100) 15 ≤ 20) :=
  ⟨(outer_bleed_keep_px_clamped .missing (-3) 15).1 (by decide),
   (outer_bleed_keep_px_clamped .missing 25 15).2.1 (by decide),
   (outer_bleed_keep_px_clamped .missing 7 15).2.2.1 (by decide) (by decide),
   (outer_bleed_keep_px_clamped .missing 7 15).2.2.2.1,
   by
     refine ⟨by decide, by decide, ?_, ?_⟩
     · exact ((outer_bleed_keep_px_clamped (.val 100) 0 15).2.2.2.2.1
         (by decide) (by decide)).1
     · exact ((outer_bleed_keep_px_clamped (.val 100) 0 15).2.2.2.2.1
         (by decide) (by decide)).2⟩

/-- C5: in both the plain/standard grid and the bleed grid placement, a front
card at column `k` is placed on the back sheet at column `cols - 1 - k`. -/
theorem back_column_mirrors_front (cols k idx : ℕ) (hk : k < cols)
    (hidx : idx % cols = k) :
    place_images_grid_inner_col cols idx false = k ∧
    place_images_grid_inner_col cols idx true = cols - 1 - k ∧
    place_images_bleed_grid_col cols idx false = k ∧
    place_images_bleed_grid_col cols idx true = cols - 1 - k := by
  simp [place_images_grid_inner_col, place_images_bleed_grid_col, hidx]

theorem back_column_mirrors_front_witness :
    (1 < 3 ∧ 4 % 3 = 1) ∧
    (place_images_grid_inner_col 3 4 false = 1 ∧
     place_images_grid_inner_col 3 4 true = 3 - 1 - 1 ∧
     place_images_bleed_grid_col 3 4 false = 1 ∧
     place_images_bleed_grid_col 3 4 true = 3 - 1 - 1) :=
  ⟨⟨by decide, by decide⟩, back_column_mirrors_front 3 1 4 (by decide) (by decide)⟩

/-- C7: for positive cell sizes the planner computes
`cols = max 1 ⌊avail_w / box_w⌋` and `rows = max 1 ⌊(avail_h - extra) / box_h⌋`
and centers the grid (origin = margin + reserve + (avail - grid)/2 per axis, so
the grid midpoint equals the available-area midpoint); on non-positive
available area it falls back to a 1×1 grid anchored just inside margins and
reserves. -/
theorem grid_planner_counts_and_centering
    (page_w page_h box_w box_h : ℚ) (m : Margins) (logo_path : Option Unit)
    (bottom_res extra left_res right_res top_fixed : ℚ)
    (hbw : 0 < box_w) (hbh : 0 < box_h) :
    (0 < page_w - m.left - m.right - left_res - right_res →
     0 < page_h - m.top - m.bottom - top_fixed - bottom_res →
      (compute_max_grid_counts page_w page_h box_w box_h m logo_path bottom_res
          extra left_res right_res top_fixed).cols
        = max 1 ⌊(page_w - m.left - m.right - left_res - right_res) / box_w⌋ ∧
      (compute_max_grid_counts page_w page_h box_w box_h m logo_path bottom_res
          extra left_res right_res top_fixed).rows
        = max 1 ⌊(page_h - m.top - m.bottom - top_fixed - bottom_res - extra) / box_h⌋ ∧
      (compute_max_grid_counts page_w page_h box_w box_h m logo_path bottom_res
          extra left_res right_res top_fixed).x0
        = m.left + left_res
          + ((page_w - m.left - m.right - left_res - right_res)
              - (compute_max_grid_counts page_w page_h box_w box_h m logo_path
                  bottom_res extra left_res right_res top_fixed).grid_w) / 2 ∧
      (compute_max_grid_counts page_w page_h box_w box_h m logo_path bottom_res
          extra left_res right_res top_fixed).y0
        = m.bottom + bottom_res
          + ((page_h - m.top - m.bottom - top_fixed - bottom_res)
              - (compute_max_grid_counts page_w page_h box_w box_h m logo_path
                  bottom_res extra left_res right_res top_fixed).grid_h) / 2 ∧
      (compute_max_grid_counts page_w page_h box_w box_h m logo_path bottom_res
          extra left_res right_res top_fixed).x0
        + (compute_max_grid_counts page_w page_h box_w box_h m logo_path bottom_res
            extra left_res right_res top_fixed).grid_w / 2
        = (m.left + left_res) + (page_w - m.left - m.right - left_res - right_res) / 2 ∧
      (compute_max_grid_counts page_w page_h box_w box_h m logo_path bottom_res
          extra left_res right_res top_fixed).y0
        + (compute_max_grid_counts page_w page_h box_w box_h m logo_path bottom_res
            extra left_res right_res top_fixed).grid_h / 2
        = (m.bottom + bottom_res) + (page_h - m.top - m.bottom - top_fixed - bottom_res) / 2) ∧
    (page_w - m.left - m.right - left_res - right_res ≤ 0 ∨
     page_h - m.top - m.bottom - top_fixed - bottom_res ≤ 0 →
      (compute_max_grid_counts page_w page_h box_w box_h m logo_path bottom_res
          extra left_res right_res top_fixed).cols = 1 ∧
      (compute_max_grid_counts page_w page_h box_w box_h m logo_path bottom_res
          extra left_res right_res top_fixed).rows = 1 ∧
      (compute_max_grid_counts page_w page_h box_w box_h m logo_path bottom_res
          extra left_res right_res top_fixed).x0 = m.left + left_res ∧
      (compute_max_grid_counts page_w page_h box_w box_h m logo_path bottom_res
          extra left_res right_res top_fixed).y0 = m.bottom + bottom_res) := by
  have hpos : 0 < box_w ∧ 0 < box_h := ⟨hbw, hbh⟩
  constructor
  · intro hw hh
    have hcase : ¬ (page_w - m.left - m.right - left_res - right_res ≤ 0 ∨
        page_h - m.top - m.bottom - top_fixed - bottom_res ≤ 0) := by
      push_neg
      exact ⟨hw, hh⟩
    simp only [compute_max_grid_counts, compute_grid_origin_centered_with_margins,
      if_neg hcase]
    refine ⟨?_, ?_, ?_, ?_, ?_, ?_⟩ <;> first | trivial | ring
  · intro hcase
    simp only [compute_max_grid_counts, if_pos hcase]
    exact ⟨trivial, trivial, trivial, trivial⟩

theorem grid_planner_counts_and_centering_witness :
    ((0:ℚ) < 180 ∧ (0:ℚ) < 252) ∧
    (((0:ℚ) < 600 - MARGINS_PT.left - MARGINS_PT.right - 0 - 0 →
      (0:ℚ) < 800 - MARGINS_PT.top - MARGINS_PT.bottom - 15 - 15 →
      (compute_max_grid_counts 600 800 180 252 MARGINS_PT none 15 0 0 0 15).cols
        = max 1 ⌊(600 - MARGINS_PT.left - MARGINS_PT.right - 0 - 0) / 180⌋ ∧
      (compute_max_grid_counts 600 800 180 252 MARGINS_PT none 15 0 0 0 15).rows
        = max 1 ⌊(800 - MARGINS_PT.top - MARGINS_PT.bottom - 15 - 15 - 0) / 252⌋ ∧
      (compute_max_grid_counts 600 800 180 252 MARGINS_PT none 15 0 0 0 15).x0
        = MARGINS_PT.left + 0
          + ((600 - MARGINS_PT.left - MARGINS_PT.right - 0 - 0)
              - (compute_max_grid_counts 600 800 180 252 MARGINS_PT none 15 0 0 0 15).grid_w) / 2 ∧
      (compute_max_grid_counts 600 800 180 252 MARGINS_PT none 15 0 0 0 15).y0
        = MARGINS_PT.bottom + 15
          + ((800 - MARGINS_PT.top - MARGINS_PT.bottom - 15 - 15)
              - (compute_max_grid_counts 600 800 180 252 MARGINS_PT none 15 0 0 0 15).grid_h) / 2 ∧
      (compute_max_grid_counts 600 800 180 252 MARGINS_PT none 15 0 0 0 15).x0
        + (compute_max_grid_counts 600 800 180 252 MARGINS_PT none 15 0 0 0 15).grid_w / 2
        = (MARGINS_PT.left + 0) + (600 - MARGINS_PT.left - MARGINS_PT.right - 0 - 0) / 2 ∧
      (compute_max_grid_counts 600 800 180 252 MARGINS_PT none 15 0 0 0 15).y0
        + (compute_max_grid_counts 600 800 180 252 MARGINS_PT none 15 0 0 0 15).grid_h / 2
        = (MARGINS_PT.bottom + 15) + (800 - MARGINS_PT.top - MARGINS_PT.bottom - 15 - 15) / 2) ∧
    ((600:ℚ) - MARGINS_PT.left - MARGINS_PT.right - 0 - 0 ≤ 0 ∨
     (800:ℚ) - MARGINS_PT.top - MARGINS_PT.bottom - 15 - 15 ≤ 0 →
      (compute_max_grid_counts 600 800 180 252 MARGINS_PT none 15 0 0 0 15).cols = 1 ∧
      (compute_max_grid_counts 600 800 180 252 MARGINS_PT none 15 0 0 0 15).rows = 1 ∧
      (compute_max_grid_counts 600 800 180 252 MARGINS_PT none 15 0 0 0 15).x0 = MARGINS_PT.left + 0 ∧
      (compute_max_grid_counts 600 800 180 252 MARGINS_PT none 15 0 0 0 15).y0 = MARGINS_PT.bottom + 15)) :=
  ⟨⟨by norm_num, by norm_num⟩,
   grid_planner_counts_and_centering 600 800 180 252 MARGINS_PT none 15 0 0 0 15
     (by norm_num) (by norm_num)⟩

theorem BOTTOM_RESERVED_PT_eq : BOTTOM_RESERVED_PT = 15 := by
  norm_num [BOTTOM_RESERVED_PT, BOTTOM_Y, CUTMARK_LEN_PT_STD, max_def]

theorem MARGINS_PT_eq :
    MARGINS_PT = { left := 360/127, right := 360/127,
                   top := 360/127, bottom := 360/127 } := by
  norm_num [MARGINS_PT, cm_to_pt, PRINT_SAFE_MARGIN_CM]

theorem needed_h_not_a_local :
    generate_pdf_gutterfold_locals.contains "needed_h" = false := by decide

/-- C2 (code bug): on a 300×200 pt page with a Poker-height card (252 pt),
the available height is below `2*card_h + fold_gutter` in both orientations,
the orientation chooser returns the landscape page, and the gutterfold branch
of `generate_pdf` then produces a `NameError` for the unbound name `needed_h`
(referenced at source line 3161 but only defined inside
`choose_gutterfold_orientation`, line 3209) instead of the localized
"not enough space" error with the numeric shortfall. -/
theorem gutterfold_shortfall_raises_name_error :
    gf_available_h (landscape (300, 200)) < 2 * 252 + GF_FOLD_GUTTER_PT ∧
    gf_available_h ((300 : ℚ), (200 : ℚ)) < 2 * 252 + GF_FOLD_GUTTER_PT ∧
    choose_gutterfold_orientation 252 (300, 200) = (300, 200) ∧
    generate_pdf_gutterfold 300 200 180 252 GF_FOLD_GUTTER_PT
      = GutterfoldOutcome.nameError "needed_h" := by
  have hls : landscape ((300:ℚ), (200:ℚ)) = ((300:ℚ), (200:ℚ)) := by
    norm_num [landscape]
  have hav : gf_available_h ((300:ℚ), (200:ℚ)) = 20870/127 := by
    rw [gf_available_h, RESERVE_TOP_PT, BOTTOM_RESERVED_PT_eq, MARGINS_PT_eq]
    norm_num
  refine ⟨?_, ?_, ?_, ?_⟩
  · rw [hls, hav, GF_FOLD_GUTTER_PT]; norm_num
  · rw [hav, GF_FOLD_GUTTER_PT]; norm_num
  · rw [choose_gutterfold_orientation, hls]
    rw [if_neg (by rw [hav, GF_FOLD_GUTTER_PT]; norm_num)]
    rw [if_neg (by rw [hav, GF_FOLD_GUTTER_PT]; norm_num)]
    rw [if_pos (by rw [hav])]
  · rw [generate_pdf_gutterfold]
    rw [if_pos (by
      rw [RESERVE_TOP_PT, BOTTOM_RESERVED_PT_eq, MARGINS_PT_eq, GF_FOLD_GUTTER_PT]
      norm_num)]
    rw [if_neg (by rw [needed_h_not_a_local]; exact Bool.false_ne_true)]

/-- C6 counterexample: a deck of 10 front-only pairs (no backs anywhere, no
shared cardback found) with a 3×3-capacity page yields 2 front sheets
(chunks of 9 and 1), not 4. -/
theorem ten_front_only_cards_not_four_sheets :
    main_back_handling (List.replicate 10 ⟨true, false⟩) false
      = (List.replicate 10 ⟨true, false⟩, false) ∧
    standard_layout_sheet_counts (List.replicate 10 ⟨true, false⟩) 9 false
      ≠ (4, 0) := by
  constructor
  · decide
  · decide

/-- C6 (amended): a deck of 10 front-only pairs (no backs anywhere, no shared
cardback found) with a 3×3-capacity page yields exactly 2 front sheets
(9 + 1 cards) and zero back sheets. -/
theorem ten_front_only_cards_two_sheets_no_backs :
    main_back_handling (List.replicate 10 ⟨true, false⟩) false
      = (List.replicate 10 ⟨true, false⟩, false) ∧
    standard_layout_sheet_counts (List.replicate 10 ⟨true, false⟩) 9 false
      = (2, 0) := by
  constructor
  · decide
  · decide

theorem findFirstAux_eq_some {p : ℕ → Bool} :
    ∀ fuel start m, findFirstAux p start fuel = some m →
      p m = true ∧ start ≤ m ∧ ∀ k, start ≤ k → k < m → p k = false := by
  intro fuel
  induction fuel with
  | zero => intro start m h; simp [findFirstAux] at h
  | succ n ih =>
    intro start m h
    rw [findFirstAux] at h
    by_cases hp : p start
    · rw [if_pos hp] at h
      obtain rfl : start = m := by injection h
      exact ⟨hp, le_refl _, fun k hk1 hk2 => absurd (lt_of_le_of_lt hk1 hk2) (lt_irrefl _)⟩
    · rw [if_neg hp] at h
      obtain ⟨h1, h2, h3⟩ := ih (start + 1) m h
      refine ⟨h1, le_trans (Nat.le_succ _) h2, fun k hk1 hk2 => ?_⟩
      rcases Nat.eq_or_lt_of_le hk1 with rfl | hlt
      · exact Bool.eq_false_iff.mpr hp
      · exact h3 k hlt hk2

theorem findFirstAux_isSome {p : ℕ → Bool} :
    ∀ fuel start m, start ≤ m → m < start + fuel → p m = true →
      ∃ m', findFirstAux p start fuel = some m' := by
  intro fuel
  induction fuel with
  | zero => intro start m h1 h2 _; omega
  | succ n ih =>
    intro start m h1 h2 hp
    rw [findFirstAux]
    by_cases hps : p start
    · exact ⟨start, if_pos hps⟩
    · have hne : start ≠ m := by
        rintro rfl; exact hps hp
      obtain ⟨m', hm'⟩ := ih (start + 1) m (by omega) (by omega) hp
      exact ⟨m', by rw [if_neg hps]; exact hm'⟩

theorem findLastAux_eq_some {p : ℕ → Bool} :
    ∀ n m, findLastAux p n = some m →
      p m = true ∧ m < n ∧ ∀ k, m < k → k < n → p k = false := by
  intro n
  induction n with
  | zero => intro m h; simp [findLastAux] at h
  | succ n ih =>
    intro m h
    rw [findLastAux] at h
    by_cases hp : p n
    · rw [if_pos hp] at h
      obtain rfl : n = m := by injection h
      exact ⟨hp, Nat.lt_succ_self _, fun k hk1 hk2 => by omega⟩
    · rw [if_neg hp] at h
      obtain ⟨h1, h2, h3⟩ := ih m h
      refine ⟨h1, by omega, fun k hk1 hk2 => ?_⟩
      rcases Nat.lt_succ_iff_lt_or_eq.mp hk2 with hlt | rfl
      · exact h3 k hk1 hlt
      · exact Bool.eq_false_iff.mpr hp

theorem findLastAux_isSome {p : ℕ → Bool} :
    ∀ n m, m < n → p m = true → ∃ m', findLastAux p n = some m' := by
  intro n
  induction n with
  | zero => intro m h _; omega
  | succ n ih =>
    intro m h1 hp
    rw [findLastAux]
    by_cases hpn : p n
    · exact ⟨n, if_pos hpn⟩
    · have hne : m ≠ n := by rintro rfl; exact hpn hp
      obtain ⟨m', hm'⟩ := ih m (by omega) hp
      exact ⟨m', by rw [if_neg hpn]; exact hm'⟩

theorem occAt_iff {imgs : List Bool} {cols rows : ℕ} {is_back : Bool} {r c : ℕ} :
    occAt imgs cols rows is_back r c = true ↔
      ∃ idx, idx < min imgs.length (cols * rows) ∧ imgs.getD idx false = true ∧
        idx / cols = r ∧ mirror_col is_back cols (idx % cols) = c := by
  simp [occAt, List.any_eq_true, List.mem_range, Bool.and_eq_true, and_assoc]

theorem row_has_iff {imgs : List Bool} {cols rows : ℕ} {is_back : Bool} {r : ℕ} :
    row_has imgs cols rows is_back r = true ↔
      ∃ c, c < cols ∧ occAt imgs cols rows is_back r c = true := by
  simp [row_has, List.any_eq_true, List.mem_range]

theorem getD_true_lt {imgs : List Bool} {idx : ℕ}
    (h : imgs.getD idx false = true) : idx < imgs.length := by
  by_contra hge
  rw [List.getD_eq_default _ _ (by omega)] at h
  exact Bool.false_ne_true h

theorem occAt_bounds {imgs : List Bool} {cols rows : ℕ} {is_back : Bool}
    {r c : ℕ} (hc : 0 < cols)
    (h : occAt imgs cols rows is_back r c = true) : r < rows ∧ c < cols := by
  obtain ⟨idx, hlt, _, hr, hcol⟩ := occAt_iff.mp h
  have hidx : idx < cols * rows := lt_of_lt_of_le hlt (min_le_right _ _)
  constructor
  · subst hr
    exact Nat.div_lt_iff_lt_mul hc |>.mpr (by rwa [Nat.mul_comm] at hidx)
  · subst hcol
    unfold mirror_col
    split
    · omega
    · exact Nat.mod_lt _ hc

theorem occAt_self {imgs : List Bool} {cols rows : ℕ} {is_back : Bool} {idx : ℕ}
    (hidx : idx < cols * rows) (h : imgs.getD idx false = true) :
    occAt imgs cols rows is_back (idx / cols) (mirror_col is_back cols (idx % cols))
      = true :=
  occAt_iff.mpr ⟨idx, lt_min (getD_true_lt h) hidx, h, rfl, rfl⟩

theorem row_has_of_occAt {imgs : List Bool} {cols rows : ℕ} {is_back : Bool}
    {r c : ℕ} (hc : 0 < cols)
    (h : occAt imgs cols rows is_back r c = true) :
    row_has imgs cols rows is_back r = true :=
  row_has_iff.mpr ⟨c, (occAt_bounds hc h).2, h⟩

theorem row_has_false_of_ge {imgs : List Bool} {cols rows : ℕ} {is_back : Bool}
    {r : ℕ} (hc : 0 < cols) (hr : rows ≤ r) :
    row_has imgs cols rows is_back r = false := by
  by_contra h
  obtain ⟨c, _, hocc⟩ := row_has_iff.mp (Bool.of_not_eq_false h)
  exact absurd (occAt_bounds hc hocc).1 (by omega)

theorem occAt_false_of_ge_col {imgs : List Bool} {cols rows : ℕ} {is_back : Bool}
    {r c : ℕ} (hc : 0 < cols) (hge : cols ≤ c) :
    occAt imgs cols rows is_back r c = false := by
  by_contra h
  exact absurd (occAt_bounds hc (Bool.of_not_eq_false h)).2 (by omega)

/-- C1: for every sheet-side occupancy situation (arbitrary image list with
gaps, grid size, back-side mirroring) and every occupied cell, the computed
keep amounts satisfy: `top` is non-zero only if the cell's row is the first
occupied row overall; `bottom` is non-zero iff the row is the last occupied
row or the cell directly below is unoccupied; `left`/`right` are non-zero
only if the cell is the first/last occupied column within its own row; and a
cell with an occupied neighbor on a side never gets a non-zero keep amount
on that side. -/
theorem outer_bleed_keep_boundary_only (imgs : List Bool) (cols rows : ℕ)
    (is_back : Bool) (amt idx : ℕ)
    (hc : 0 < cols) (hidx : idx < cols * rows)
    (hocc : imgs.getD idx false = true) (hamt : 0 < amt) :
    ((place_keep imgs cols rows is_back amt idx).top ≠ 0 →
      IsFirstOccRow imgs cols rows is_back (idx / cols)) ∧
    ((place_keep imgs cols rows is_back amt idx).bottom ≠ 0 ↔
      (IsLastOccRow imgs cols rows is_back (idx / cols) ∨
       occAt imgs cols rows is_back (idx / cols + 1)
         (mirror_col is_back cols (idx % cols)) = false)) ∧
    ((place_keep imgs cols rows is_back amt idx).left ≠ 0 →
      IsFirstOccColInRow imgs cols rows is_back (idx / cols)
        (mirror_col is_back cols (idx % cols))) ∧
    ((place_keep imgs cols rows is_back amt idx).right ≠ 0 →
      IsLastOccColInRow imgs cols rows is_back (idx / cols)
        (mirror_col is_back cols (idx % cols))) ∧
    (∀ ca, ca + 1 = mirror_col is_back cols (idx % cols) →
      occAt imgs cols rows is_back (idx / cols) ca = true →
      (place_keep imgs cols rows is_back amt idx).left = 0) ∧
    (occAt imgs cols rows is_back (idx / cols)
        (mirror_col is_back cols (idx % cols) + 1) = true →
      (place_keep imgs cols rows is_back amt idx).right = 0) ∧
    (∀ ra, ra + 1 = idx / cols →
      occAt imgs cols rows is_back ra (mirror_col is_back cols (idx % cols)) = true →
      (place_keep imgs cols rows is_back amt idx).top = 0) ∧
    (occAt imgs cols rows is_back (idx / cols + 1)
        (mirror_col is_back cols (idx % cols)) = true →
      (place_keep imgs cols rows is_back amt idx).bottom = 0) := by
  have hoccAt : occAt imgs cols rows is_back (idx / cols)
      (mirror_col is_back cols (idx % cols)) = true := occAt_self hidx hocc
  have hb := occAt_bounds hc hoccAt
  have hrh : row_has imgs cols rows is_back (idx / cols) = true :=
    row_has_of_occAt hc hoccAt
  obtain ⟨m1, hm1⟩ := findFirstAux_isSome rows 0 (idx / cols) (Nat.zero_le _)
    (by omega) hrh
  have hmin : min_row imgs cols rows is_back = m1 := by
    rw [min_row, hm1]; rfl
  obtain ⟨hm1p, -, hm1min⟩ := findFirstAux_eq_some rows 0 m1 hm1
  obtain ⟨m2, hm2⟩ := findLastAux_isSome rows (idx / cols) hb.1 hrh
  have hmax : max_row imgs cols rows is_back = m2 := by
    rw [max_row, hm2]; rfl
  obtain ⟨hm2p, hm2lt, hm2max⟩ := findLastAux_eq_some rows m2 hm2
  have hr0le : idx / cols ≤ m2 := by
    by_contra hgt
    push_neg at hgt
    have hfalse := hm2max (idx / cols) hgt hb.1
    simp [hrh] at hfalse
  obtain ⟨n1, hn1⟩ := findFirstAux_isSome cols 0
    (mirror_col is_back cols (idx % cols)) (Nat.zero_le _) (by omega) hoccAt
  have hmincol : min_col_row imgs cols rows is_back (idx / cols) = some n1 := by
    rw [min_col_row, if_pos hrh, hn1]; rfl
  obtain ⟨hn1p, -, hn1min⟩ := findFirstAux_eq_some cols 0 n1 hn1
  obtain ⟨n2, hn2⟩ := findLastAux_isSome cols
    (mirror_col is_back cols (idx % cols)) hb.2 hoccAt
  have hmaxcol : max_col_row imgs cols rows is_back (idx / cols) = some n2 := by
    rw [max_col_row, if_pos hrh, hn2]; rfl
  obtain ⟨hn2p, hn2lt, hn2max⟩ := findLastAux_eq_some cols n2 hn2
  simp only [place_keep]
  have htop : (if idx / cols = min_row imgs cols rows is_back then amt else 0) ≠ 0 →
      IsFirstOccRow imgs cols rows is_back (idx / cols) := by
    intro h
    by_cases he : idx / cols = min_row imgs cols rows is_back
    · rw [hmin] at he
      refine ⟨hrh, fun r' hr' => hm1min r' (Nat.zero_le _) (by omega)⟩
    · simp [he] at h
  have hlast_of_eq : idx / cols = m2 →
      IsLastOccRow imgs cols rows is_back (idx / cols) := by
    intro he
    refine ⟨hrh, fun r' hr' => ?_⟩
    by_cases hrr : r' < rows
    · exact hm2max r' (by omega) hrr
    · exact row_has_false_of_ge hc (by omega)
  have hnotlast : idx / cols ≠ m2 →
      ¬ IsLastOccRow imgs cols rows is_back (idx / cols) := by
    intro hne hcon
    have := hcon.2 m2 (by omega)
    simp [hm2p] at this
  have hbottom : ((if idx / cols = max_row imgs cols rows is_back then amt
      else if idx / cols + 1 < rows then
        (if occAt imgs cols rows is_back (idx / cols + 1)
            (mirror_col is_back cols (idx % cols)) then 0 else amt)
      else 0) ≠ 0 ↔
      (IsLastOccRow imgs cols rows is_back (idx / cols) ∨
       occAt imgs cols rows is_back (idx / cols + 1)
         (mirror_col is_back cols (idx % cols)) = false)) := by
    by_cases he : idx / cols = max_row imgs cols rows is_back
    · rw [if_pos he]
      rw [hmax] at he
      exact ⟨fun _ => Or.inl (hlast_of_eq he), fun _ => by omega⟩
    · rw [if_neg he]
      rw [hmax] at he
      have hr0lt : idx / cols < m2 := lt_of_le_of_ne hr0le he
      rw [if_pos (show idx / cols + 1 < rows by omega)]
      by_cases ho : occAt imgs cols rows is_back (idx / cols + 1)
          (mirror_col is_back cols (idx % cols))
      · rw [if_pos ho]
        simp [ho, hnotlast he]
      · rw [if_neg ho]
        simp only [Bool.not_eq_true] at ho
        simp [ho]
        omega
  have hleft : (if min_col_row imgs cols rows is_back (idx / cols)
        = some (mirror_col is_back cols (idx % cols)) then amt else 0) ≠ 0 →
      IsFirstOccColInRow imgs cols rows is_back (idx / cols)
        (mirror_col is_back cols (idx % cols)) := by
    intro h
    by_cases he : min_col_row imgs cols rows is_back (idx / cols)
        = some (mirror_col is_back cols (idx % cols))
    · rw [hmincol] at he
      have hn1e : n1 = mirror_col is_back cols (idx % cols) := by injection he
      refine ⟨hoccAt, fun c' hc' => hn1min c' (Nat.zero_le _) (by omega)⟩
    · simp [he] at h
  have hright : (if max_col_row imgs cols rows is_back (idx / cols)
        = some (mirror_col is_back cols (idx % cols)) then amt else 0) ≠ 0 →
      IsLastOccColInRow imgs cols rows is_back (idx / cols)
        (mirror_col is_back cols (idx % cols)) := by
    intro h
    by_cases he : max_col_row imgs cols rows is_back (idx / cols)
        = some (mirror_col is_back cols (idx % cols))
    · rw [hmaxcol] at he
      have hn2e : n2 = mirror_col is_back cols (idx % cols) := by injection he
      refine ⟨hoccAt, fun c' hc' => ?_⟩
      by_cases hcc : c' < cols
      · exact hn2max c' (by omega) hcc
      · exact occAt_false_of_ge_col hc (by omega)
    · simp [he] at h
  refine ⟨htop, hbottom, hleft, hright, ?_, ?_, ?_, ?_⟩
  · intro ca hca ho
    by_cases he : min_col_row imgs cols rows is_back (idx / cols)
        = some (mirror_col is_back cols (idx % cols))
    · exfalso
      obtain ⟨-, hall⟩ := hleft (by rw [if_pos he]; omega)
      have := hall ca (by omega)
      simp [ho] at this
    · rw [if_neg he]
  · intro ho
    by_cases he : max_col_row imgs cols rows is_back (idx / cols)
        = some (mirror_col is_back cols (idx % cols))
    · exfalso
      obtain ⟨-, hall⟩ := hright (by rw [if_pos he]; omega)
      have := hall (mirror_col is_back cols (idx % cols) + 1) (by omega)
      simp [ho] at this
    · rw [if_neg he]
  · intro ra hra ho
    by_cases he : idx / cols = min_row imgs cols rows is_back
    · exfalso
      obtain ⟨-, hall⟩ := htop (by rw [if_pos he]; omega)
      have := hall ra (by omega)
      have hrh' := row_has_of_occAt hc ho
      simp [hrh'] at this
    · rw [if_neg he]
  · intro ho
    by_cases he : idx / cols = max_row imgs cols rows is_back
    · exfalso
      rw [hmax] at he
      obtain ⟨-, hall⟩ := hlast_of_eq he
      have := hall (idx / cols + 1) (by omega)
      have hrh' := row_has_of_occAt hc ho
      simp [hrh'] at this
    · rw [if_neg he]
      rw [hmax] at he
      have hr0lt : idx / cols < m2 := lt_of_le_of_ne hr0le he
      rw [if_pos (show idx / cols + 1 < rows by omega), if_pos ho]

theorem outer_bleed_keep_boundary_only_witness :
    (0 < 3 ∧ 3 < 3 * 2 ∧
     [true, true, true, true].getD 3 false = true ∧ 0 < 15) ∧
    (((place_keep [true, true, true, true] 3 2 false 15 3).top ≠ 0 →
      IsFirstOccRow [true, true, true, true] 3 2 false (3 / 3)) ∧
    ((place_keep [true, true, true, true] 3 2 false 15 3).bottom ≠ 0 ↔
      (IsLastOccRow [true, true, true, true] 3 2 false (3 / 3) ∨
       occAt [true, true, true, true] 3 2 false (3 / 3 + 1)
         (mirror_col false 3 (3 % 3)) = false)) ∧
    ((place_keep [true, true, true, true] 3 2 false 15 3).left ≠ 0 →
      IsFirstOccColInRow [true, true, true, true] 3 2 false (3 / 3)
        (mirror_col false 3 (3 % 3))) ∧
    ((place_keep [true, true, true, true] 3 2 false 15 3).right ≠ 0 →
      IsLastOccColInRow [true, true, true, true] 3 2 false (3 / 3)
        (mirror_col false 3 (3 % 3))) ∧
    (∀ ca, ca + 1 = mirror_col false 3 (3 % 3) →
      occAt [true, true, true, true] 3 2 false (3 / 3) ca = true →
      (place_keep [true, true, true, true] 3 2 false 15 3).left = 0) ∧
    (occAt [true, true, true, true] 3 2 false (3 / 3)
        (mirror_col false 3 (3 % 3) + 1) = true →
      (place_keep [true, true, true, true] 3 2 false 15 3).right = 0) ∧
    (∀ ra, ra + 1 = 3 / 3 →
      occAt [true, true, true, true] 3 2 false ra (mirror_col false 3 (3 % 3)) = true →
      (place_keep [true, true, true, true] 3 2 false 15 3).top = 0) ∧
    (occAt [true, true, true, true] 3 2 false (3 / 3 + 1)
        (mirror_col false 3 (3 % 3)) = true →
      (place_keep [true, true, true, true] 3 2 false 15 3).bottom = 0)) :=
  ⟨⟨by decide, by decide, by decide, by decide⟩,
   outer_bleed_keep_boundary_only [true, true, true, true] 3 2 false 15 3
     (by decide) (by decide) (by decide) (by decide)⟩

/-- C9: in inner (crop-bleed) mode, a source that is smaller than the inner
size on at least one axis after the bleed-crop steps is stretch-resized to
exactly the inner dimensions; undersized input always produces a result
(the branch is total — nothing is rejected). -/
theorem undersized_source_upscaled_to_inner (iw ih w h : ℤ)
    (hund : (inner_crop_steps iw ih w h).1 < iw ∨
            (inner_crop_steps iw ih w h).2 < ih) :
    inner_crop_dims iw ih w h = (iw, ih) := by
  simp only [inner_crop_dims]
  rw [if_pos hund]

theorem undersized_source_upscaled_to_inner_witness :
    ((inner_crop_steps 750 1050 100 100).1 < 750 ∨
     (inner_crop_steps 750 1050 100 100).2 < 1050) ∧
    inner_crop_dims 750 1050 100 100 = (750, 1050) :=
  ⟨by decide, undersized_source_upscaled_to_inner 750 1050 100 100 (by decide)⟩


/-- C4 (amended): a source whose pixel dimensions are exactly the bleed
canvas size normalizes in inner mode to exactly the inner dimensions and in
bleed mode to exactly the bleed dimensions; the saved raster keeps those
dimensions under the lossless preset (lossy presets may subsequently shrink
to the DPI-derived pixel box); and a repeated call with an identical cache
key returns the same cached result, leaving the cache unchanged. -/
theorem preprocess_bleed_sized_roundtrip (iw ih : ℤ) (bw_in bh_in : ℚ) :
    inner_crop_dims iw ih (iw + BLEED_LEFT_TOP_PX + BLEED_RIGHT_BOTTOM_PX)
        (ih + BLEED_LEFT_TOP_PX + BLEED_RIGHT_BOTTOM_PX) = (iw, ih) ∧
    bleed_crop_dims iw ih (iw + BLEED_LEFT_TOP_PX + BLEED_RIGHT_BOTTOM_PX)
        (ih + BLEED_LEFT_TOP_PX + BLEED_RIGHT_BOTTOM_PX)
      = (iw + BLEED_LEFT_TOP_PX + BLEED_RIGHT_BOTTOM_PX,
         ih + BLEED_LEFT_TOP_PX + BLEED_RIGHT_BOTTOM_PX) ∧
    preprocess_card_image_dims iw ih Quality.lossless bw_in bh_in true
        (iw + BLEED_LEFT_TOP_PX + BLEED_RIGHT_BOTTOM_PX)
        (ih + BLEED_LEFT_TOP_PX + BLEED_RIGHT_BOTTOM_PX) = (iw, ih) ∧
    preprocess_card_image_dims iw ih Quality.lossless bw_in bh_in false
        (iw + BLEED_LEFT_TOP_PX + BLEED_RIGHT_BOTTOM_PX)
        (ih + BLEED_LEFT_TOP_PX + BLEED_RIGHT_BOTTOM_PX)
      = (iw + BLEED_LEFT_TOP_PX + BLEED_RIGHT_BOTTOM_PX,
         ih + BLEED_LEFT_TOP_PX + BLEED_RIGHT_BOTTOM_PX) ∧
    (∀ cache k w h, preprocess_card_image_cached iw ih
        (preprocess_card_image_cached iw ih cache k w h).2 k w h
      = preprocess_card_image_cached iw ih cache k w h) := by
  have hsteps : inner_crop_steps iw ih
      (iw + BLEED_LEFT_TOP_PX + BLEED_RIGHT_BOTTOM_PX)
      (ih + BLEED_LEFT_TOP_PX + BLEED_RIGHT_BOTTOM_PX) = (iw, ih) := by
    simp only [inner_crop_steps, BLEED_LEFT_TOP_PX, BLEED_RIGHT_BOTTOM_PX]
    norm_num
    omega
  have hinner : inner_crop_dims iw ih
      (iw + BLEED_LEFT_TOP_PX + BLEED_RIGHT_BOTTOM_PX)
      (ih + BLEED_LEFT_TOP_PX + BLEED_RIGHT_BOTTOM_PX) = (iw, ih) := by
    simp only [inner_crop_dims, hsteps]
    norm_num
  have hbleed : bleed_crop_dims iw ih
      (iw + BLEED_LEFT_TOP_PX + BLEED_RIGHT_BOTTOM_PX)
      (ih + BLEED_LEFT_TOP_PX + BLEED_RIGHT_BOTTOM_PX)
      = (iw + BLEED_LEFT_TOP_PX + BLEED_RIGHT_BOTTOM_PX,
         ih + BLEED_LEFT_TOP_PX + BLEED_RIGHT_BOTTOM_PX) := by
    simp only [bleed_crop_dims, BLEED_LEFT_TOP_PX, BLEED_RIGHT_BOTTOM_PX]
    norm_num
    intro h
    exact absurd (by ring) h
  refine ⟨hinner, hbleed, ?_, ?_, ?_⟩
  · simp [preprocess_card_image_dims, hinner]
  · simp [preprocess_card_image_dims, hbleed]
  · intro cache k w h
    simp only [preprocess_card_image_cached]
    cases hl : cache_lookup cache k with
    | some v => simp [hl]
    | none => simp [hl, cache_lookup]

/-- C4 counterexample: with the Poker geometry (inner 750×1050), the medium
preset (200 dpi) and the standard 2.5×3.5 inch card box, preprocessing an
exactly bleed-sized 825×1125 source in inner mode saves a 500×700 raster —
not one of exactly inner dimensions. -/
theorem preprocess_inner_medium_shrinks_below_inner :
    preprocess_card_image_dims 750 1050 Quality.medium (5/2) (7/2) true 825 1125
      = (500, 700) ∧
    ((500 : ℤ), (700 : ℤ)) ≠ ((750 : ℤ), (1050 : ℤ)) := by
  have hg : inner_crop_dims 750 1050 825 1125 = (750, 1050) := by decide
  have ht : target_pixels_for_box_inches (5/2) (7/2) (dpi Quality.medium)
      = (500, 700) := by
    have h1 : (5/2 : ℚ) * ((dpi Quality.medium : ℤ) : ℚ) = ((500:ℤ) : ℚ) := by
      norm_num [dpi]
    have h2 : (7/2 : ℚ) * ((dpi Quality.medium : ℤ) : ℚ) = ((700:ℤ) : ℚ) := by
      norm_num [dpi]
    simp only [target_pixels_for_box_inches, h1, h2, pyRound_intCast]
  have hth : thumbnail_dims 750 1050 500 700 = (500, 700) := by
    simp only [thumbnail_dims]
    rw [if_neg (by omega)]
    rw [if_pos (by omega)]
    norm_num
    rw [show (500 : ℚ) = ((500:ℤ) : ℚ) by norm_num]
    rw [pyRound_intCast]
    decide
  constructor
  · norm_num [preprocess_card_image_dims, hg, ht, hth]
    decide
  · decide
